import Mathlib

/-!
Shallow embedding of the core image transforms of `ai-watermark-protection`
(`src/app.py`: `expand_image`, `crop_image`), together with theorems settling
the specification claims about them.

Modelling conventions:
* Python's float arithmetic on dimensions (`int(w * 0.1)`, `round(w2 / 1.1)`)
  is embedded as exact rational arithmetic on naturals: `int(w * 0.1)` is the
  truncation `w / 10`, and `round(w2 / 1.1)` is the nearest integer to
  `10 * w2 / 11` with Python's round-half-to-even tie rule.
* A PIL image is a width, a height, a channel mode and a total pixel map;
  pixels are quadruples of channel values.  For mode `RGB` the alpha channel
  is conventionally 255 (as in PIL's internal RGBX storage) and for mode `L`
  the three colour channels carry the same gray value.  Modes other than
  `RGB`, `RGBA`, `L` are all converted to RGB by the program before any other
  work, exactly like `L`, and are not modelled separately.
* `Image.paste` without a mask copies source pixels into the region;
  `Image.paste` with the source's own alpha band as mask interpolates every
  band (including alpha) with PIL's `BLEND`/`MULDIV255` integer arithmetic
  from `Paste.c`, which is reproduced bit-exactly below.
-/

namespace AIWatermark

/-- PIL channel modes handled by the program: `RGB`, `RGBA` and grayscale
`L`.  Every other PIL mode is converted to RGB by the very same code path as
`L`, so `L` stands in for all non-RGB non-RGBA modes. -/
inductive Mode where
  | RGB
  | RGBA
  | L
deriving DecidableEq

/-- A pixel as a quadruple of channel values (each 0..255 in real images).
For `RGB` pixels the `a` field is conventionally 255; for `L` pixels the
three colour fields carry the same gray value. -/
structure Pixel where
  r : Nat
  g : Nat
  b : Nat
  a : Nat
deriving DecidableEq

/-- The Background Fill of the spec: opaque white. -/
def whitePx : Pixel := ⟨255, 255, 255, 255⟩

/-- A decoded in-memory image: dimensions, channel mode and pixel map.
Only the values `px x y` with `x < width`, `y < height` are meaningful. -/
structure Image where
  width : Nat
  height : Nat
  mode : Mode
  px : Nat → Nat → Pixel

/-- `expand_width = int(original_width * 0.1)` and
`new_width = original_width + expand_width` from `src/app.py` lines 32-37,
with the float product modelled exactly: `int(d * 0.1) = d / 10`. -/
def expandDim (d : Nat) : Nat := d + d / 10

/-- Round `q / d` to the nearest integer with ties to even: the behaviour of
Python's built-in `round`, which `src/app.py` line 93-94 applies to
`current_width / 1.1`. -/
def roundHalfToEvenDiv (q d : Nat) : Nat :=
  if 2 * (q % d) < d then q / d
  else if d < 2 * (q % d) then q / d + 1
  else if (q / d) % 2 = 0 then q / d else q / d + 1

/-- Round `q / d` to the nearest integer with ties away from zero (for
naturals: ties upward).  This is the rounding rule the spec documents for
`restored_size`; it is compared against the source's round-half-to-even. -/
def roundHalfAwayDiv (q d : Nat) : Nat :=
  if 2 * (q % d) < d then q / d else q / d + 1

/-- `original_width = round(current_width / 1.1)` from `src/app.py` lines
93-94: the exact quotient is `10 * d2 / 11`, rounded with Python's
round-half-to-even. -/
def restoredDim (d2 : Nat) : Nat := roundHalfToEvenDiv (10 * d2) 11

/-- The Dimension Calculator's expand direction: both axes of the new canvas,
as computed by `expand_image` (`src/app.py` lines 32-37). -/
def expanded_size (w h : Nat) : Nat × Nat := (expandDim w, expandDim h)

/-- The Dimension Calculator's inverse direction: both reconstructed axes,
as computed by `crop_image` (`src/app.py` lines 93-94). -/
def restored_size (w2 h2 : Nat) : Nat × Nat := (restoredDim w2, restoredDim h2)

/-- PIL `image.convert('RGB')` on the modes the program converts (`L` and
every mode other than RGB/RGBA): the colour channels are kept (for `L` the
gray value is already replicated across `r`, `g`, `b`) and alpha becomes the
conventional 255. -/
def Image.convertRGB (i : Image) : Image :=
  { i with mode := Mode.RGB
           px := fun x y => { i.px x y with a := 255 } }

/-- PIL `Image.new(mode, (w, h), c)`: a constant image. -/
def Image.newFilled (m : Mode) (w h : Nat) (c : Pixel) : Image :=
  ⟨w, h, m, fun _ _ => c⟩

/-- PIL's `MULDIV255(a, b)` from `Paste.c`: the exact integer computation
`t := a * b + 128; ((t >> 8) + t) >> 8`, which equals `round(a * b / 255)`
for channel values. -/
def muldiv255 (a b : Nat) : Nat :=
  ((a * b + 128) / 256 + (a * b + 128)) / 256

/-- PIL's `BLEND(mask, in1, in2)` from `Paste.c`, applied per band. -/
def blendChan (m d s : Nat) : Nat := muldiv255 d (255 - m) + muldiv255 s m

/-- One pixel of a masked paste: every band, the alpha band included, is
interpolated between destination and source by the mask value. -/
def blendPixel (m : Nat) (d s : Pixel) : Pixel :=
  ⟨blendChan m d.r s.r, blendChan m d.g s.g, blendChan m d.b s.b,
   blendChan m d.a s.a⟩

/-- PIL `dst.paste(src, (0, 0))` (no mask): source pixels replace the
destination inside the source's extent. -/
def Image.paste (dst src : Image) : Image :=
  { dst with px := fun x y =>
      if x < src.width ∧ y < src.height then src.px x y else dst.px x y }

/-- PIL `dst.paste(src, (0, 0), src)` with an RGBA `src`: the source's alpha
band is the mask, and every destination band in the region is blended with
`BLEND` (`src/app.py` line 44). -/
def Image.pasteAlphaMask (dst src : Image) : Image :=
  { dst with px := fun x y =>
      if x < src.width ∧ y < src.height then
        blendPixel (src.px x y).a (dst.px x y) (src.px x y)
      else dst.px x y }

/-- `expand_image` from `src/app.py` lines 13-56 (the `image is None` guard
of the Python wrapper is outside the model): compute the expanded canvas
size; for RGBA sources paste with the source's alpha as mask onto an opaque
white RGBA canvas; every other source is first converted to RGB (the `RGB`
mode itself is left untouched) and pasted without a mask onto a white RGB
canvas. -/
def expand_image (image : Image) : Image :=
  let nw := expandDim image.width
  let nh := expandDim image.height
  if image.mode = Mode.RGBA then
    (Image.newFilled Mode.RGBA nw nh whitePx).pasteAlphaMask image
  else
    let img := if image.mode = Mode.RGB then image else image.convertRGB
    (Image.newFilled Mode.RGB nw nh whitePx).paste img

/-- The typed error of the Cropper: reconstructed size not positive
(`raise ValueError("Image is too small to crop")`, `src/app.py` line 98). -/
inductive CropError where
  | invalidDimension
deriving DecidableEq

/-- `crop_image` from `src/app.py` lines 59-103: RGBA and RGB inputs keep
their mode, every other mode is converted to RGB; the original size is
reconstructed by `round(current / 1.1)` on each axis; if either value is not
positive the function fails; otherwise it crops `(0, 0, w, h)`, which keeps
the mode and the pixels of the region. -/
def crop_image (image : Image) : Except CropError Image :=
  let img := if image.mode = Mode.RGBA ∨ image.mode = Mode.RGB then image
             else image.convertRGB
  let ow := restoredDim img.width
  let oh := restoredDim img.height
  if ow = 0 ∨ oh = 0 then Except.error CropError.invalidDimension
  else Except.ok ⟨ow, oh, img.mode, fun x y => img.px x y⟩

/-- One crop-axis round trip `s ↦ restored(expanded(s))`. -/
def roundTripDim (s : Nat) : Nat := restoredDim (expandDim s)

/-- Closed form of the reconstruction: rounding `10 * n / 11` half-to-even
never meets a tie, so it is the floor of `(20 * n + 11) / 22`. -/
theorem restoredDim_eq (n : Nat) : restoredDim n = (20 * n + 11) / 22 := by
  unfold restoredDim roundHalfToEvenDiv
  split
  · omega
  · split
    · omega
    · omega

/-- Closed form of the round trip on one axis: sizes whose last decimal digit
is at most 5 are recovered exactly, the others lose one pixel. -/
theorem roundTripDim_eq (s : Nat) :
    roundTripDim s = if 6 ≤ s % 10 then s - 1 else s := by
  unfold roundTripDim expandDim
  rw [restoredDim_eq]
  split
  · omega
  · omega

/-- Helper: sizes whose last decimal digit is at most 5 are fixed points of
the expand-then-crop round trip. -/
theorem roundTripDim_fixed (n : Nat) (h : n % 10 ≤ 5) : roundTripDim n = n := by
  rw [roundTripDim_eq, if_neg (by omega)]

/-- Helper: on the other sizes the round trip loses exactly one pixel, and
the last decimal digit also drops by one. -/
theorem roundTripDim_step (n : Nat) (h : 6 ≤ n % 10) :
    roundTripDim n = n - 1 ∧ (roundTripDim n) % 10 = n % 10 - 1 := by
  rw [roundTripDim_eq, if_pos h]
  omega

/-- C1: for every pair of positive integers `(w, h)`, restoring the expanded
size — `round((w + floor(w*0.1))/1.1)` and likewise for `h` — differs from
`(w, h)` by at most one pixel on each axis. -/
theorem restored_of_expanded_within_one (w h : Nat) (hw : 1 ≤ w) (hh : 1 ≤ h) :
    (restored_size (expanded_size w h).1 (expanded_size w h).2).1 ≤ w + 1 ∧
    w ≤ (restored_size (expanded_size w h).1 (expanded_size w h).2).1 + 1 ∧
    (restored_size (expanded_size w h).1 (expanded_size w h).2).2 ≤ h + 1 ∧
    h ≤ (restored_size (expanded_size w h).1 (expanded_size w h).2).2 + 1 := by
  simp only [restored_size, expanded_size]
  have h1 := roundTripDim_eq w
  have h2 := roundTripDim_eq h
  unfold roundTripDim at h1 h2
  rw [h1, h2]
  split_ifs <;> omega

/-- Witness for C1 at the concrete size 777 × 555 from the repository's own
edge-case tests. -/
theorem restored_of_expanded_within_one_at_777 :
    (restored_size (expanded_size 777 555).1 (expanded_size 777 555).2).1 ≤ 777 + 1 ∧
    777 ≤ (restored_size (expanded_size 777 555).1 (expanded_size 777 555).2).1 + 1 ∧
    (restored_size (expanded_size 777 555).1 (expanded_size 777 555).2).2 ≤ 555 + 1 ∧
    555 ≤ (restored_size (expanded_size 777 555).1 (expanded_size 777 555).2).2 + 1 :=
  restored_of_expanded_within_one 777 555 (by decide) (by decide)

/-- C2: `expand_image` outputs exactly `w + floor(w*0.1)` by
`h + floor(h*0.1)` — the margin of each axis is truncated first and then
added. -/
theorem expand_image_size (image : Image)
    (hw : 1 ≤ image.width) (hh : 1 ≤ image.height) :
    (expand_image image).width = image.width + image.width / 10 ∧
    (expand_image image).height = image.height + image.height / 10 := by
  unfold expand_image
  split <;>
    simp [Image.pasteAlphaMask, Image.paste, Image.newFilled, expandDim]

/-- Witness for C2: a 1000 × 800 input expands to exactly 1100 × 880. -/
theorem expand_image_size_at_1000_800 :
    (expand_image (Image.newFilled Mode.RGB 1000 800 whitePx)).width = 1100 ∧
    (expand_image (Image.newFilled Mode.RGB 1000 800 whitePx)).height = 880 := by
  have h := expand_image_size (Image.newFilled Mode.RGB 1000 800 whitePx)
    (by decide) (by decide)
  exact ⟨by rw [h.1]; decide, by rw [h.2]; decide⟩

/-- C9: on every input, the source's rounding (Python's round-half-to-even of
`d2 / 1.1`) agrees with the round-half-away-from-zero rule the spec
documents, because `10 * d2 / 11` is never exactly a half-integer. -/
theorem restored_rounding_half_away_agrees (w2 h2 : Nat) :
    restoredDim w2 = roundHalfAwayDiv (10 * w2) 11 ∧
    restoredDim h2 = roundHalfAwayDiv (10 * h2) 11 := by
  refine ⟨?_, ?_⟩ <;>
    (unfold restoredDim roundHalfToEvenDiv roundHalfAwayDiv; split_ifs <;> omega)

/-- C10 counterexample: the size 17 is reachable after one crop (20 → 18)
and one expand-then-crop cycle (18 → 17), yet one more cycle still changes
it (17 → 16 → 15): the shape is not stable after the first round trip. -/
theorem crop_expand_cycle_not_stable_after_one :
    restoredDim 20 = 18 ∧
    roundTripDim 18 = 17 ∧
    roundTripDim 17 = 16 ∧
    roundTripDim 16 = 15 ∧
    roundTripDim (roundTripDim 17) ≠ roundTripDim 17 := by decide

/-- C10 amended: each expand-then-crop cycle changes each axis by at most
one pixel and never enlarges it, and the size stabilises after at most four
cycles (a fifth application changes nothing) — but not necessarily after the
first. -/
theorem crop_expand_cycle_converges (s : Nat) (hs : 1 ≤ s) :
    roundTripDim s ≤ s ∧ s ≤ roundTripDim s + 1 ∧
    roundTripDim (roundTripDim (roundTripDim (roundTripDim (roundTripDim s)))) =
      roundTripDim (roundTripDim (roundTripDim (roundTripDim s))) := by
  have e := roundTripDim_eq s
  refine ⟨by rw [e]; split <;> omega, by rw [e]; split <;> omega, ?_⟩
  by_cases c1 : (roundTripDim s) % 10 ≤ 5
  · simp only [roundTripDim_fixed _ c1]
  · obtain ⟨e1, m1⟩ := roundTripDim_step (roundTripDim s) (by omega)
    by_cases c2 : (roundTripDim (roundTripDim s)) % 10 ≤ 5
    · simp only [roundTripDim_fixed _ c2]
    · obtain ⟨e2, m2⟩ := roundTripDim_step (roundTripDim (roundTripDim s)) (by omega)
      by_cases c3 :
          (roundTripDim (roundTripDim (roundTripDim s))) % 10 ≤ 5
      · simp only [roundTripDim_fixed _ c3]
      · obtain ⟨e3, m3⟩ :=
          roundTripDim_step (roundTripDim (roundTripDim (roundTripDim s))) (by omega)
        have h0 : 6 ≤ s % 10 := by
          by_contra hc
          rw [roundTripDim_fixed s (by omega)] at c1
          omega
        obtain ⟨e0, m0⟩ := roundTripDim_step s h0
        have hm : s % 10 ≤ 9 := Nat.le_of_lt_succ (Nat.mod_lt _ (by omega))
        exact roundTripDim_fixed _ (by omega)

/-- Witness for the amended C10 at the concrete size 17, where convergence
takes more than one cycle. -/
theorem crop_expand_cycle_converges_at_17 :
    roundTripDim 17 ≤ 17 ∧ 17 ≤ roundTripDim 17 + 1 ∧
    roundTripDim (roundTripDim (roundTripDim (roundTripDim (roundTripDim 17)))) =
      roundTripDim (roundTripDim (roundTripDim (roundTripDim 17))) :=
  crop_expand_cycle_converges 17 (by decide)

/-- Helper: the mode-normalisation step at the top of `crop_image` never
changes the image's size. -/
theorem cropSrc_size (image : Image) :
    (if image.mode = Mode.RGBA ∨ image.mode = Mode.RGB then image
     else image.convertRGB).width = image.width ∧
    (if image.mode = Mode.RGBA ∨ image.mode = Mode.RGB then image
     else image.convertRGB).height = image.height := by
  split <;> exact ⟨rfl, rfl⟩

/-- Helper: explicit description of both outcomes of `crop_image`. -/
theorem crop_image_cases (image : Image) :
    (restoredDim image.width = 0 ∨ restoredDim image.height = 0 →
      crop_image image = Except.error CropError.invalidDimension) ∧
    (¬(restoredDim image.width = 0 ∨ restoredDim image.height = 0) →
      crop_image image = Except.ok
        ⟨restoredDim image.width, restoredDim image.height,
         (if image.mode = Mode.RGBA ∨ image.mode = Mode.RGB then image
          else image.convertRGB).mode,
         fun x y =>
           (if image.mode = Mode.RGBA ∨ image.mode = Mode.RGB then image
            else image.convertRGB).px x y⟩) := by
  obtain ⟨hw, hh⟩ := cropSrc_size image
  simp only [crop_image]
  rw [hw, hh]
  constructor
  · intro h
    rw [if_pos h]
  · intro h
    rw [if_neg h]

/-- C3: whenever `crop_image` succeeds, the output is exactly
`round(w2/1.1)` by `round(h2/1.1)`. -/
theorem crop_image_size (image out : Image)
    (h : crop_image image = Except.ok out) :
    out.width = restoredDim image.width ∧
    out.height = restoredDim image.height := by
  obtain ⟨herr, hok⟩ := crop_image_cases image
  by_cases hc : restoredDim image.width = 0 ∨ restoredDim image.height = 0
  · rw [herr hc] at h
    exact absurd h (by simp)
  · rw [hok hc, Except.ok.injEq] at h
    rw [← h]
    exact ⟨rfl, rfl⟩

/-- Witness for C3: an 1100 × 880 input crops to exactly 1000 × 800. -/
theorem crop_image_size_at_1100_880 :
    crop_image (Image.newFilled Mode.RGB 1100 880 whitePx) =
      Except.ok (Image.mk 1000 800 Mode.RGB fun _ _ => whitePx) ∧
    (Image.mk 1000 800 Mode.RGB fun _ _ => whitePx).width = 1000 ∧
    (Image.mk 1000 800 Mode.RGB fun _ _ => whitePx).height = 800 := by
  have e : crop_image (Image.newFilled Mode.RGB 1100 880 whitePx) =
      Except.ok (Image.mk 1000 800 Mode.RGB fun _ _ => whitePx) := rfl
  have h := crop_image_size (Image.newFilled Mode.RGB 1100 880 whitePx)
    (Image.mk 1000 800 Mode.RGB fun _ _ => whitePx) e
  exact ⟨e, h.1, h.2⟩

/-- C6: `crop_image` fails with `InvalidDimension` if and only if one of the
reconstructed dimensions is zero, and a successful result is never of zero
size. -/
theorem crop_image_invalid_iff (image : Image) :
    (crop_image image = Except.error CropError.invalidDimension ↔
      restoredDim image.width = 0 ∨ restoredDim image.height = 0) ∧
    ∀ out, crop_image image = Except.ok out →
      1 ≤ out.width ∧ 1 ≤ out.height := by
  obtain ⟨herr, hok⟩ := crop_image_cases image
  constructor
  · constructor
    · intro h
      by_contra hc
      rw [hok hc] at h
      exact absurd h (by simp)
    · exact herr
  · intro out h
    by_cases hc : restoredDim image.width = 0 ∨ restoredDim image.height = 0
    · rw [herr hc] at h
      exact absurd h (by simp)
    · rw [hok hc, Except.ok.injEq] at h
      rw [← h]
      push_neg at hc
      exact ⟨show 1 ≤ restoredDim image.width by omega,
             show 1 ≤ restoredDim image.height by omega⟩

/-- Witness for C6: a degenerate 0 × 5 image fails with `InvalidDimension`,
and on a successful crop of an 11 × 11 image both output dimensions are
positive. -/
theorem crop_image_invalid_iff_at_0_and_11 :
    crop_image (Image.newFilled Mode.RGB 0 5 whitePx) =
      Except.error CropError.invalidDimension ∧
    (1 ≤ (Image.mk 10 10 Mode.RGB fun _ _ => whitePx).width ∧
     1 ≤ (Image.mk 10 10 Mode.RGB fun _ _ => whitePx).height) := by
  refine ⟨(crop_image_invalid_iff (Image.newFilled Mode.RGB 0 5 whitePx)).1.mpr
    (Or.inl (by decide)), ?_⟩
  exact (crop_image_invalid_iff (Image.newFilled Mode.RGB 11 11 whitePx)).2
    (Image.mk 10 10 Mode.RGB fun _ _ => whitePx) rfl

/-- C7: on any input of positive width and height, the `InvalidDimension`
branch of `crop_image` is unreachable, and the reconstructed dimensions
satisfy `1 ≤ round(d/1.1) ≤ d`, so the crop rectangle lies within the input
image's bounds. -/
theorem crop_image_no_error (image : Image)
    (hw : 1 ≤ image.width) (hh : 1 ≤ image.height) :
    crop_image image ≠ Except.error CropError.invalidDimension ∧
    1 ≤ restoredDim image.width ∧ restoredDim image.width ≤ image.width ∧
    1 ≤ restoredDim image.height ∧ restoredDim image.height ≤ image.height := by
  have h1 := restoredDim_eq image.width
  have h2 := restoredDim_eq image.height
  have hr : ¬(restoredDim image.width = 0 ∨ restoredDim image.height = 0) := by
    omega
  refine ⟨?_, by omega, by omega, by omega, by omega⟩
  rw [(crop_image_cases image).2 hr]
  simp

/-- Witness for C7 at a concrete Full-HD 1920 × 1080 image. -/
theorem crop_image_no_error_at_1920_1080 :
    crop_image (Image.newFilled Mode.RGB 1920 1080 whitePx) ≠
      Except.error CropError.invalidDimension ∧
    1 ≤ restoredDim 1920 ∧ restoredDim 1920 ≤ 1920 ∧
    1 ≤ restoredDim 1080 ∧ restoredDim 1080 ≤ 1080 :=
  crop_image_no_error (Image.newFilled Mode.RGB 1920 1080 whitePx)
    (by decide) (by decide)

/-- C4 (code bug): the RGBA branch of `expand_image` pastes with the
source's alpha band as mask, which blends against the opaque white canvas
instead of copying source pixels verbatim.  A fully transparent black pixel
`(0,0,0,0)` comes out as opaque white `(255,255,255,255)`, and a
half-transparent black pixel `(0,0,0,128)` comes out as the blend
`(127,127,127,191)` — in both cases the alpha value is not preserved,
contradicting the claim (and the function's own docstring "Preserves
transparency for RGBA images"). -/
theorem expand_image_not_verbatim_on_alpha :
    (expand_image (Image.mk 1 1 Mode.RGBA fun _ _ => ⟨0, 0, 0, 0⟩)).px 0 0 =
      whitePx ∧
    (Image.mk 1 1 Mode.RGBA fun _ _ => (⟨0, 0, 0, 0⟩ : Pixel)).px 0 0 ≠
      whitePx ∧
    (expand_image (Image.mk 1 1 Mode.RGBA fun _ _ => ⟨0, 0, 0, 128⟩)).px 0 0 =
      ⟨127, 127, 127, 191⟩ := by
  refine ⟨rfl, by decide, rfl⟩

/-- C5: every pixel of `expand_image`'s output outside the top-left `w × h`
region is the Background Fill — opaque white, with full opacity in the
padded region of an alpha-bearing output. -/
theorem expand_image_background (image : Image) (x y : Nat)
    (hx : x < (expand_image image).width)
    (hy : y < (expand_image image).height)
    (hout : ¬(x < image.width ∧ y < image.height)) :
    (expand_image image).px x y = whitePx := by
  unfold expand_image
  by_cases hm : image.mode = Mode.RGBA
  · simp [hm, Image.pasteAlphaMask, Image.newFilled, hout]
  · by_cases hr : image.mode = Mode.RGB
    · simp [hm, hr, Image.paste, Image.newFilled, hout]
    · simp [hm, hr, Image.paste, Image.newFilled, Image.convertRGB, hout]

/-- Witness for C5: the first padded pixel to the right of a 10 × 10 RGBA
source is opaque white. -/
theorem expand_image_background_at_10_10 :
    (expand_image (Image.mk 10 10 Mode.RGBA fun _ _ => ⟨1, 2, 3, 4⟩)).px 10 0 =
      whitePx :=
  expand_image_background (Image.mk 10 10 Mode.RGBA fun _ _ => ⟨1, 2, 3, 4⟩)
    10 0 (by decide) (by decide) (by decide)

/-- C8 counterexample: a grayscale (`L`) input is converted to RGB by
`crop_image`, so the output's channel mode is not unchanged. -/
theorem crop_image_mode_changes_on_gray :
    (Image.mk 11 11 Mode.L fun _ _ => (⟨7, 7, 7, 255⟩ : Pixel)).mode = Mode.L ∧
    (crop_image (Image.mk 11 11 Mode.L fun _ _ => ⟨7, 7, 7, 255⟩)).map
      Image.mode = Except.ok Mode.RGB := by
  exact ⟨rfl, rfl⟩

/-- C8 amended: on RGB and RGBA inputs a successful `crop_image` keeps the
channel mode and its pixels are bit-identical to the `(0,0)-(w,h)` region of
the input; a grayscale input is first converted to RGB, so its mode becomes
RGB and its pixels are the gray values with the conventional opaque alpha. -/
theorem crop_image_mode_and_pixels (image out : Image)
    (h : crop_image image = Except.ok out) :
    (image.mode = Mode.RGBA ∨ image.mode = Mode.RGB →
      out.mode = image.mode ∧
      ∀ x y, x < out.width → y < out.height → out.px x y = image.px x y) ∧
    (image.mode = Mode.L →
      out.mode = Mode.RGB ∧
      ∀ x y, x < out.width → y < out.height →
        out.px x y = { image.px x y with a := 255 }) := by
  obtain ⟨herr, hok⟩ := crop_image_cases image
  by_cases hc : restoredDim image.width = 0 ∨ restoredDim image.height = 0
  · rw [herr hc] at h
    exact absurd h (by simp)
  · rw [hok hc, Except.ok.injEq] at h
    rw [← h]
    constructor
    · intro hm
      rw [if_pos hm]
      exact ⟨rfl, fun x y _ _ => rfl⟩
    · intro hm
      have hnot : ¬(image.mode = Mode.RGBA ∨ image.mode = Mode.RGB) := by
        rw [hm]
        decide
      rw [if_neg hnot]
      exact ⟨rfl, fun x y _ _ => rfl⟩

/-- Witness for the amended C8 at a concrete 11 × 11 RGBA image: mode kept,
and the pixel at (5,5) is the input's pixel. -/
theorem crop_image_mode_and_pixels_at_rgba :
    (Image.mk 10 10 Mode.RGBA fun x y =>
        (Image.mk 11 11 Mode.RGBA fun _ _ => (⟨9, 8, 7, 6⟩ : Pixel)).px x y).mode =
      (Image.mk 11 11 Mode.RGBA fun _ _ => (⟨9, 8, 7, 6⟩ : Pixel)).mode ∧
    (Image.mk 10 10 Mode.RGBA fun x y =>
        (Image.mk 11 11 Mode.RGBA fun _ _ => (⟨9, 8, 7, 6⟩ : Pixel)).px x y).px 5 5 =
      (Image.mk 11 11 Mode.RGBA fun _ _ => (⟨9, 8, 7, 6⟩ : Pixel)).px 5 5 := by
  have h := crop_image_mode_and_pixels
    (Image.mk 11 11 Mode.RGBA fun _ _ => ⟨9, 8, 7, 6⟩)
    (Image.mk 10 10 Mode.RGBA fun x y =>
      (Image.mk 11 11 Mode.RGBA fun _ _ => (⟨9, 8, 7, 6⟩ : Pixel)).px x y)
    rfl
  have h2 := h.1 (Or.inl rfl)
  exact ⟨h2.1, h2.2 5 5 (by decide) (by decide)⟩

end AIWatermark
